import Mathlib

/-!
Verification of the structural-query semantics of the Agentic-RAG repository.

The development shallowly embeds the parts of the program the claims are
about:

* `src/load_data.py` — the indexer's metadata construction loop (directory,
  file name, extension and depth derived from each file path) and the
  chunk-splitting step;
* `src/structure_agent.py` — the read-only structural query tools over the
  persisted records (`count_total_files`, `count_files_in_directory`,
  `count_subdirectories_in_directory`, `list_subdirectories_in_directory`,
  `list_top_level_directories`, `list_files_in_directory`,
  `count_files_by_extension`);
* `src/content_agent.py` — the `content_search` tool's formatting and
  error conversion.

Strings are modelled as `List Char` (`Str`), a persisted MongoDB collection
as a `List Record` in insertion order, and the MongoDB operations
(`distinct`, `find_one`, `count_documents`, `$regex` matching, `$group`
aggregation) as list functions.
-/

/-- Character-list strings: the embedding works on `List Char` so that all
definitions compute and all proofs can proceed by list induction. -/
abbrev Str := List Char

/-- Number of path separators (`os.sep = '/'` on the deployment platform)
occurring in a string, as used by `load_data.py` line 46
(`directory_path.count(os.sep)`). -/
def countSep (s : Str) : Nat := s.count '/'

/-- Embedding of `posixpath.dirname` (`os.path.dirname` on the deployment
platform): take everything up to and including the last `'/'`, then strip
trailing slashes unless the result is empty or consists only of slashes. -/
def dirname (p : Str) : Str :=
  let head := (p.reverse.dropWhile (fun c => !(c == '/'))).reverse
  if head = [] then head
  else if head.all (fun c => c == '/') then head
  else (head.reverse.dropWhile (fun c => c == '/')).reverse

/-- Embedding of `posixpath.basename`: the characters after the last `'/'`. -/
def basename (p : Str) : Str :=
  (p.reverse.takeWhile (fun c => !(c == '/'))).reverse

/-- Embedding of the extension component of `posixpath.splitext`, applied by
`load_data.py` to `file_name_with_ext` (a basename, hence slash-free): the
substring from the last `'.'` on, except that a basename whose characters
before the last dot are all dots (e.g. `.bashrc`, `..`) has no extension. -/
def splitextExt (b : Str) : Str :=
  let revTail := b.reverse.takeWhile (fun c => !(c == '.'))
  if revTail.length = b.length then []
  else
    let stem := b.take (b.length - revTail.length - 1)
    if stem.all (fun c => c == '.') then [] else '.' :: revTail.reverse

/-- The root-directory sentinel `'.'` used by `load_data.py` line 50. -/
def rootDir : Str := ['.']

/-- One persisted chunk row, carrying the metadata fields constructed in
`load_data.py` lines 53-65 (the embedding vector is irrelevant to every
claim and omitted). -/
structure Record where
  source : Str
  file_name : Str
  file_extension : Str
  directory : Str
  depth : Nat
  page_content : Str
deriving Repr, DecidableEq

/-- Embedding of the metadata construction in `load_data.py` lines 40-65 for
one file entry: `directory_path = os.path.dirname(file_path)`; if it is
non-empty, `depth = directory_path.count(os.sep) + 1`, otherwise `depth = 0`
and the directory is the sentinel `'.'`. -/
def mkRecord (file_path : Str) (content : Str) : Record :=
  let directory_path := dirname file_path
  let file_name_with_ext := basename file_path
  let file_extension := splitextExt file_name_with_ext
  if directory_path = [] then
    { source := file_path, file_name := file_name_with_ext,
      file_extension := file_extension, directory := rootDir, depth := 0,
      page_content := content }
  else
    { source := file_path, file_name := file_name_with_ext,
      file_extension := file_extension, directory := directory_path,
      depth := countSep directory_path + 1, page_content := content }

/-- Embedding of the content filter in `load_data.py` line 39
(`isinstance(content, str) and content.strip()`): `none` stands for a
non-string (binary / failed) content, and a string is kept exactly when it
has a non-whitespace character (Python truthiness of `content.strip()`). -/
def hasTextContent : Option Str → Bool
  | some c => c.any (fun ch => !ch.isWhitespace)
  | none => false

/-- Embedding of the per-file loop of `load_data.py` lines 37-65: the fetched
map is a list of `(path, content)` pairs; entries failing the text filter are
skipped, the rest produce one full-content document each. -/
def indexDocuments (files : List (Str × Option Str)) : List Record :=
  files.filterMap (fun pc =>
    match pc.2 with
    | some c => if hasTextContent (some c) then some (mkRecord pc.1 c) else none
    | none => none)

/-- Modelled from the spec: `RecursiveCharacterTextSplitter.split_documents`
(`load_data.py` lines 87-89) is external library code not present in this
repository; per spec section 4.2 every chunk "inherits the parent record's
full metadata unchanged", so the splitting of one document's text is
abstracted as a `chunker` parameter and each produced chunk keeps the
document's metadata. -/
def splitDocuments (chunker : Str → List Str) (docs : List Record) : List Record :=
  docs.flatMap (fun d =>
    (chunker d.page_content).map (fun t => { d with page_content := t }))

/-- The full indexing pipeline: metadata construction followed by chunk
splitting; the resulting list models the rows persisted to the collection. -/
def persistedRecords (chunker : Str → List Str) (files : List (Str × Option Str)) :
    List Record :=
  splitDocuments chunker (indexDocuments files)

/-- A valid path component as produced by the GitHub contents API (the
`item['path']` values walked by `github_data_extractor.py`): git tree entry
names are non-empty, contain no separator, and are never the sentinel
`"."`. -/
def validComponent (c : Str) : Prop := c ≠ [] ∧ (∀ ch ∈ c, ch ≠ '/') ∧ c ≠ ['.']

/-- Join path components with single separators, the format of every path
the fetcher hands to the indexer. -/
def joinPath : List Str → Str
  | [] => []
  | [c] => c
  | c :: c2 :: cs => c ++ '/' :: joinPath (c2 :: cs)

/-- A repository file path: a non-empty sequence of valid components joined
by `'/'`, which is exactly the shape of the GitHub API `path` fields that
`load_data.py` receives from `get_all_files`. -/
def isRepoPath (p : Str) : Prop :=
  ∃ comps : List Str, comps ≠ [] ∧ (∀ c ∈ comps, validComponent c) ∧ p = joinPath comps

instance : DecidablePred validComponent := fun c => by
  unfold validComponent; infer_instance

/-- The depth value determined by a directory string alone: `0` for the root
sentinel, otherwise separator count plus one — the formula of
`load_data.py` lines 46-49 expressed as a function of the `directory`
field. -/
def dirDepth (d : Str) : Nat := if d = rootDir then 0 else countSep d + 1

/-- Parent of a directory string under the same convention the indexer uses
for files: `dirname`, with the empty result standing for the root
sentinel. -/
def parentDir (d : Str) : Str :=
  if dirname d = [] then rootDir else dirname d

/-- PCRE metacharacters outside a character class. Any of these occurring
unescaped in a pattern changes its meaning; `structure_agent.py` escapes only
`'.'` before interpolating a directory path into its `$regex` pattern. -/
def regexMeta : List Char :=
  ['\\', '^', '$', '.', '|', '?', '*', '+', '(', ')', '[', ']', '{', '}']

/-- Whether a character is a PCRE metacharacter. -/
def isMeta (c : Char) : Bool := decide (c ∈ regexMeta)

/-- A path character that survives the code's dot-only escaping with a
literal meaning: either `'.'` (which the code does escape) or a
non-metacharacter. -/
def regexSafeChar (c : Char) : Bool := c == '.' || !isMeta c

/-- A directory path whose interpolation into the regex stays literal under
the code's dot-only escaping. -/
def regexSafe (p : Str) : Bool := p.all regexSafeChar

/-- Embedding of `directory_path.replace(".", "\\.")` from
`structure_agent.py` lines 119 and 227: each dot becomes backslash-dot,
every other character is kept as is. -/
def escapeDots : Str → Str
  | [] => []
  | c :: rest => (if c = '.' then ['\\', '.'] else [c]) ++ escapeDots rest

/-- A token of the regex subset reachable from the patterns the code
generates: a literal character, or a character under a `+` or `*`
quantifier. -/
inductive RTok where
  | lit (c : Char)
  | plus (c : Char)
  | star (c : Char)
deriving Repr, DecidableEq

/-- Match zero or more copies of `c` at the front of the string, then hand
the remaining suffix to `matchRest`, with full backtracking (try the empty
repetition first, then longer ones). -/
def starMatch (c : Char) (matchRest : Str → Bool) : Str → Bool
  | [] => matchRest []
  | x :: xs => matchRest (x :: xs) || (x == c && starMatch c matchRest xs)

/-- Backtracking matcher for a token list against the beginning of a string
(the pattern is anchored by the leading `'^'` the code always writes, and has
no trailing anchor, so trailing characters are allowed). -/
def rtokMatch : List RTok → Str → Bool
  | [], _ => true
  | RTok.lit _ :: _, [] => false
  | RTok.lit c :: ts, x :: xs => x == c && rtokMatch ts xs
  | RTok.plus _ :: _, [] => false
  | RTok.plus c :: ts, x :: xs => x == c && starMatch c (fun s2 => rtokMatch ts s2) xs
  | RTok.star c :: ts, s => starMatch c (fun s2 => rtokMatch ts s2) s

/-- A lexed pattern element: a backslash-escaped character, or a plain one. -/
inductive PTok where
  | esc (c : Char)
  | raw (c : Char)
deriving Repr, DecidableEq

/-- First pass over a pattern body: resolve backslash escapes into tagged
elements; a dangling final backslash is a PCRE error, rendered as `none`. -/
def lexPattern : Str → Option (List PTok)
  | [] => some []
  | '\\' :: [] => none
  | '\\' :: a :: rest2 => (lexPattern rest2).map (fun ps => PTok.esc a :: ps)
  | c :: rest => (lexPattern rest).map (fun ps => PTok.raw c :: ps)

/-- Second pass: scan the lexed elements left to right, holding the latest
atom as `pending` so that a plain `+` or `*` can attach to it. Constructs
outside the supported subset — a plain metacharacter as an atom, a
quantifier with nothing to repeat, a `?` or `{` quantifier, possessive
stacking (the quantifier position never holds a pending atom), an escape
class `\\w`-style element — yield `none`. -/
def toksAux (pending : Option Char) : List PTok → Option (List RTok)
  | [] =>
    match pending with
    | none => some []
    | some a => some [RTok.lit a]
  | PTok.esc e :: rest =>
    if e.isAlphanum then none
    else
      match pending with
      | none => toksAux (some e) rest
      | some a => (toksAux (some e) rest).map (fun ts => RTok.lit a :: ts)
  | PTok.raw q :: rest =>
    if q = '+' then
      match pending with
      | none => none
      | some a => (toksAux none rest).map (fun ts => RTok.plus a :: ts)
    else if q = '*' then
      match pending with
      | none => none
      | some a => (toksAux none rest).map (fun ts => RTok.star a :: ts)
    else if q = '?' then none
    else if q = '{' then none
    else if isMeta q then none
    else
      match pending with
      | none => toksAux (some q) rest
      | some a => (toksAux (some q) rest).map (fun ts => RTok.lit a :: ts)

/-- Token list of a lexed pattern body. -/
def toksOf (ps : List PTok) : Option (List RTok) := toksAux none ps

/-- Parser for the pattern body (after the `'^'` anchor) into tokens,
covering the PCRE constructs reachable from the code's generated patterns:
plain literals, backslash-escaped non-alphanumeric literals, and `+` or `*`
quantifiers on the preceding single-character atom. No theorem below
evaluates the matcher on a pattern outside this subset. -/
def parseRegexBody (s : Str) : Option (List RTok) :=
  match lexPattern s with
  | none => none
  | some ptoks => toksOf ptoks

/-- MongoDB `$regex` matching for the anchored patterns the code builds
(`'^' + body`): parse the body and match from the start of the subject. -/
def mongoRegexMatch (body : Str) (s : Str) : Bool :=
  match parseRegexBody body with
  | some ts => rtokMatch ts s
  | none => false

/-- The pattern body built at `structure_agent.py` lines 119-120 and 227-228:
`regex_pattern = f'^{escaped_directory_path}/'` (the `'^'` anchor itself is
reflected in `mongoRegexMatch` matching at position 0). -/
def subdirPattern (directory_path : Str) : Str := escapeDots directory_path ++ ['/']

/-- Boolean literal-prefix test: `startsWith pre s` is true when `s` begins
with exactly the characters of `pre`. -/
def startsWith : Str → Str → Bool
  | [], _ => true
  | _ :: _, [] => false
  | a :: as, b :: bs => a == b && startsWith as bs

/-- Result of `collection.distinct(field, filter)`: the deduplicated field
values of the records passing the filter (MongoDB returns them in
unspecified order; the callers either take the length or sort). -/
def mongoDistinctDirs (pred : Record → Bool) (db : List Record) : List Str :=
  ((db.filter pred).map (fun r => r.directory)).dedup

/-- Lexicographic string order used to model Python's `sorted` on the
string lists the tools produce. -/
def strLe : Str → Str → Bool
  | [], _ => true
  | _ :: _, [] => false
  | a :: as, b :: bs => if a = b then strLe as bs else decide (a < b)

/-- The order above as a decidable relation, for the sort. Since the order
is total and the sorted lists are duplicate-free, any correct sort agrees
with Python's `sorted`; the development uses insertion sort. -/
def strLeP (a b : Str) : Prop := strLe a b = true

instance : DecidableRel strLeP := fun a b =>
  inferInstanceAs (Decidable (strLe a b = true))

/-- Descending-count order of the `$sort: -1` stage of
`count_files_by_extension`. -/
def descCountP (a b : Str × Nat) : Prop := b.2 ≤ a.2

instance : DecidableRel descCountP := fun a b =>
  inferInstanceAs (Decidable (b.2 ≤ a.2))

/-- Embedding of `count_total_files` (`structure_agent.py` lines 29-30):
the number of distinct `file_name` values; the `$exists` filter is the
constant true predicate because every embedded record carries the field. -/
def countTotalFilesCore (db : List Record) : Nat :=
  ((db.filter (fun _ => true)).map (fun r => r.file_name)).dedup.length

/-- Embedding of `count_files_in_directory` (`structure_agent.py` line 84):
`count_documents` with an exact-equality filter on `directory`. -/
def countFilesInDirectoryCore (db : List Record) (directory_path : Str) : Nat :=
  db.countP (fun r => r.directory == directory_path)

/-- Embedding of `list_files_in_directory` (`structure_agent.py` lines
191-192): find all records with the exact directory and project their
`file_name`; the `if 'file_name' in f` guard always passes in the embedding
because the field is total. -/
def listFilesInDirectoryCore (db : List Record) (directory_path : Str) : List Str :=
  (db.filter (fun r => r.directory == directory_path)).map (fun r => r.file_name)

/-- Embedding of `list_top_level_directories` (`structure_agent.py` line
170): sorted distinct `directory` values of records at depth 1. -/
def listTopLevelDirectoriesCore (db : List Record) : List Str :=
  List.insertionSort strLeP (mongoDistinctDirs (fun r => r.depth == 1) db)

/-- The distinct directories matching the subdirectory query filter built at
`structure_agent.py` lines 121-126 and 229-235: the `$regex` prefix pattern
together with the exact target depth. -/
def subdirRegexMatches (db : List Record) (directory_path : Str) (target_depth : Nat) :
    List Str :=
  mongoDistinctDirs
    (fun r => mongoRegexMatch (subdirPattern directory_path) r.directory
      && r.depth == target_depth) db

/-- Outcome of the subdirectory-counting tool, before natural-language
formatting: the not-found early return of `structure_agent.py` line 109, or
a count. -/
inductive SubdirsResult where
  | notFound
  | count (n : Nat)
deriving Repr, DecidableEq

/-- Outcome of the subdirectory-listing tool before formatting. -/
inductive SubdirsListResult where
  | notFound
  | dirs (names : List Str)
deriving Repr, DecidableEq

/-- Embedding of `count_subdirectories_in_directory` (`structure_agent.py`
lines 101-135): for the root sentinel the filter is just `depth == 1`;
otherwise the parent's depth is resolved by `find_one` (first record in
natural order whose `directory` equals the path — the projected `depth`
field is total in the embedding, so the `'depth' not in parent_doc` guard
never fires), the matches one level deeper are collected through the regex
prefix filter, the path itself is removed from the result list if present
(lines 128-129), and the length is returned. -/
def countSubdirectoriesCore (db : List Record) (directory_path : Str) : SubdirsResult :=
  if directory_path = rootDir then
    SubdirsResult.count (mongoDistinctDirs (fun r => r.depth == 1) db).length
  else
    match db.find? (fun r => r.directory == directory_path) with
    | none => SubdirsResult.notFound
    | some parent_doc =>
      let target_depth := parent_doc.depth + 1
      let immediate_subdirs := subdirRegexMatches db directory_path target_depth
      let immediate_subdirs2 :=
        if directory_path ∈ immediate_subdirs
        then immediate_subdirs.erase directory_path
        else immediate_subdirs
      SubdirsResult.count immediate_subdirs2.length

/-- Embedding of `list_subdirectories_in_directory` (`structure_agent.py`
lines 210-242): identical resolution and filtering, but the distinct list is
sorted and returned instead of counted. -/
def listSubdirectoriesCore (db : List Record) (directory_path : Str) : SubdirsListResult :=
  if directory_path = rootDir then
    SubdirsListResult.dirs (List.insertionSort strLeP (mongoDistinctDirs (fun r => r.depth == 1) db))
  else
    match db.find? (fun r => r.directory == directory_path) with
    | none => SubdirsListResult.notFound
    | some parent_doc =>
      let target_depth := parent_doc.depth + 1
      let immediate_subdirs :=
        List.insertionSort strLeP (subdirRegexMatches db directory_path target_depth)
      let immediate_subdirs2 :=
        if directory_path ∈ immediate_subdirs
        then immediate_subdirs.erase directory_path
        else immediate_subdirs
      SubdirsListResult.dirs immediate_subdirs2

/-- Embedding of the aggregation pipeline of `count_files_by_extension`
(`structure_agent.py` lines 259-262): group every record by its
`file_extension` value, count the records of each group, and sort the groups
by descending count. -/
def countFilesByExtensionCore (db : List Record) : List (Str × Nat) :=
  List.insertionSort descCountP
    (((db.map (fun r => r.file_extension)).dedup).map
      (fun e => (e, db.countP (fun r => r.file_extension == e))))

/-- Characters of a Lean string literal, for building the exact message
strings the tools return. -/
def strL (s : String) : Str := s.data

/-- Decimal rendering of a count, as Python string interpolation produces. -/
def natStr (n : Nat) : Str := (Nat.repr n).data

/-- Join a list of strings with a separator, as `"sep".join(parts)` does. -/
def joinSep (sep : Str) : List Str → Str
  | [] => []
  | [x] => x
  | x :: y :: xs => x ++ sep ++ joinSep sep (y :: xs)

/-- Embedding of the whole `count_total_files` tool body
(`structure_agent.py` lines 27-36) including its `try/except`: the
argument is the outcome of the underlying database call (`Except.error e`
standing for a raised exception with message `e`), and the tool always
returns a string — the success sentence or the error sentence. -/
def countTotalFilesTool (dbr : Except Str (List Record)) : Str :=
  match dbr with
  | Except.error e => strL "Error counting total unique files: " ++ e
  | Except.ok db =>
    strL "Total number of unique original files indexed: "
      ++ natStr (countTotalFilesCore db)

/-- A chunk as returned by the vector store's similarity search
(`content_agent.py` line 29): `metadata.get('source', 'N/A')` may be
absent, hence the option. -/
structure ChunkDoc where
  source : Option Str
  page_content : Str
deriving Repr, DecidableEq

/-- Embedding of the whole `content_search` tool body (`content_agent.py`
lines 27-45) including its `try/except`: the argument is the outcome of the
similarity-search call, and the tool always returns a string — the
formatted chunks, the no-results sentence, or the error sentence. -/
def contentSearchTool (docsr : Except Str (List ChunkDoc)) : Str :=
  match docsr with
  | Except.error e => strL "Error during content search: " ++ e
  | Except.ok docs =>
    match docs with
    | [] => strL "No relevant document chunks found."
    | _ :: _ =>
      joinSep (strL "\n---\n")
        (docs.map (fun d =>
          strL "Source: " ++ d.source.getD (strL "N/A")
            ++ strL "\nContent:\n" ++ d.page_content))

/-- Embedding of `count_total_directories` (`structure_agent.py` line 48):
the number of distinct `directory` values excluding the root sentinel. -/
def countTotalDirectoriesCore (db : List Record) : Nat :=
  (mongoDistinctDirs (fun r => !(r.directory == rootDir)) db).length

/-- Embedding of `count_top_level_directories` (`structure_agent.py` line
65): the number of distinct `directory` values at depth 1. -/
def countTopLevelDirectoriesCore (db : List Record) : Nat :=
  (mongoDistinctDirs (fun r => r.depth == 1) db).length

/-- Embedding of `list_all_directories` (`structure_agent.py` line 153):
the sorted distinct `directory` values excluding the root sentinel. -/
def listAllDirectoriesCore (db : List Record) : List Str :=
  List.insertionSort strLeP (mongoDistinctDirs (fun r => !(r.directory == rootDir)) db)

/-- The single-quote character, for the quoted path interpolations of the
tools' f-strings. -/
def quoteChar : Char := Char.ofNat 39

/-- A path as interpolated into a message between single quotes. -/
def quoted (s : Str) : Str := quoteChar :: (s ++ [quoteChar])

/-- Python's `", ".join(xs) if xs else "None"` used by every listing tool. -/
def joinedOrNone (xs : List Str) : Str :=
  match xs with
  | [] => strL "None"
  | _ :: _ => joinSep (strL ", ") xs

/-- Embedding of the whole `count_total_directories` tool body
(`structure_agent.py` lines 45-53) including its `try/except`. -/
def countTotalDirectoriesTool (dbr : Except Str (List Record)) : Str :=
  match dbr with
  | Except.error e => strL "Error counting total directories: " ++ e
  | Except.ok db =>
    strL "Total number of unique directories indexed (excluding root): "
      ++ natStr (countTotalDirectoriesCore db)

/-- Embedding of the whole `count_top_level_directories` tool body
(`structure_agent.py` lines 62-70) including its `try/except`. -/
def countTopLevelDirectoriesTool (dbr : Except Str (List Record)) : Str :=
  match dbr with
  | Except.error e => strL "Error counting top-level directories: " ++ e
  | Except.ok db =>
    strL "Total number of top-level directories indexed: "
      ++ natStr (countTopLevelDirectoriesCore db)

/-- Embedding of the whole `count_files_in_directory` tool body
(`structure_agent.py` lines 82-89) including its `try/except`. -/
def countFilesInDirectoryTool (directory_path : Str)
    (dbr : Except Str (List Record)) : Str :=
  match dbr with
  | Except.error e =>
    strL "Error counting files in directory " ++ quoted directory_path
      ++ strL ": " ++ e
  | Except.ok db =>
    strL "Total number of files directly in directory " ++ quoted directory_path
      ++ strL ": " ++ natStr (countFilesInDirectoryCore db directory_path)

/-- Embedding of the whole `count_subdirectories_in_directory` tool body
(`structure_agent.py` lines 101-140) including its `try/except`: the
in-`try` query logic is `countSubdirectoriesCore`, whose not-found outcome
renders the early-return sentence of line 109. -/
def countSubdirectoriesTool (directory_path : Str)
    (dbr : Except Str (List Record)) : Str :=
  match dbr with
  | Except.error e =>
    strL "Error counting subdirectories in directory " ++ quoted directory_path
      ++ strL ": " ++ e
  | Except.ok db =>
    match countSubdirectoriesCore db directory_path with
    | SubdirsResult.notFound =>
      strL "Directory " ++ quoted directory_path
        ++ strL " not found or has no subdirectories indexed."
    | SubdirsResult.count n =>
      strL "Total number of subdirectories directly in directory "
        ++ quoted directory_path ++ strL ": " ++ natStr n

/-- Embedding of the whole `list_all_directories` tool body
(`structure_agent.py` lines 150-159) including its `try/except`. -/
def listAllDirectoriesTool (dbr : Except Str (List Record)) : Str :=
  match dbr with
  | Except.error e => strL "Error listing all directories: " ++ e
  | Except.ok db =>
    strL "All unique directories: " ++ joinedOrNone (listAllDirectoriesCore db)

/-- Embedding of the whole `list_top_level_directories` tool body
(`structure_agent.py` lines 168-176) including its `try/except`. -/
def listTopLevelDirectoriesTool (dbr : Except Str (List Record)) : Str :=
  match dbr with
  | Except.error e => strL "Error listing top-level directories: " ++ e
  | Except.ok db =>
    strL "Top-level directories: " ++ joinedOrNone (listTopLevelDirectoriesCore db)

/-- Embedding of the whole `list_files_in_directory` tool body
(`structure_agent.py` lines 188-198) including its `try/except`. -/
def listFilesInDirectoryTool (directory_path : Str)
    (dbr : Except Str (List Record)) : Str :=
  match dbr with
  | Except.error e =>
    strL "Error listing files in directory " ++ quoted directory_path
      ++ strL ": " ++ e
  | Except.ok db =>
    strL "Files found directly in directory " ++ quoted directory_path
      ++ strL ": " ++ joinedOrNone (listFilesInDirectoryCore db directory_path)

/-- Embedding of the whole `list_subdirectories_in_directory` tool body
(`structure_agent.py` lines 210-246) including its `try/except`: the
in-`try` query logic is `listSubdirectoriesCore`, whose not-found outcome
renders the early-return sentence of line 218. -/
def listSubdirectoriesTool (directory_path : Str)
    (dbr : Except Str (List Record)) : Str :=
  match dbr with
  | Except.error e =>
    strL "Error listing subdirectories in directory " ++ quoted directory_path
      ++ strL ": " ++ e
  | Except.ok db =>
    match listSubdirectoriesCore db directory_path with
    | SubdirsListResult.notFound =>
      strL "Directory " ++ quoted directory_path
        ++ strL " not found or has no subdirectories indexed."
    | SubdirsListResult.dirs names =>
      strL "Subdirectories directly in directory " ++ quoted directory_path
        ++ strL ": " ++ joinedOrNone names

/-- Embedding of the whole `count_files_by_extension` tool body
(`structure_agent.py` lines 256-273) including its `try/except`: an empty
aggregation yields the no-data sentence, otherwise one line per bucket with
the empty extension labelled `None`. -/
def countFilesByExtensionTool (dbr : Except Str (List Record)) : Str :=
  match dbr with
  | Except.error e => strL "Error counting files by extension: " ++ e
  | Except.ok db =>
    match countFilesByExtensionCore db with
    | [] => strL "No file extension data found."
    | g :: gs =>
      strL "File extension counts:\n"
        ++ joinSep (strL "\n")
          ((g :: gs).map (fun item =>
            strL "- "
              ++ (match item.1 with
                  | [] => strL "None"
                  | c :: cs => c :: cs)
              ++ strL ": " ++ natStr item.2))

/-- Embedding of the whole `summarize_repo_content` tool body
(`content_agent.py` lines 55-73) including its `try/except`: the argument is
the outcome of the fixed broad similarity search, and the chunk formatting
repeats the block of `content_search` as the source does. -/
def summarizeRepoContentTool (docsr : Except Str (List ChunkDoc)) : Str :=
  match docsr with
  | Except.error e => strL "Error retrieving content for summary: " ++ e
  | Except.ok docs =>
    match docs with
    | [] => strL "Could not retrieve content for a general summary."
    | _ :: _ =>
      joinSep (strL "\n---\n")
        (docs.map (fun d =>
          strL "Source: " ++ d.source.getD (strL "N/A")
            ++ strL "\nContent:\n" ++ d.page_content))

/-- The lexed element a path character contributes after the code's dot-only
escaping. -/
def ptokOf (c : Char) : PTok := if c = '.' then PTok.esc '.' else PTok.raw c

/-- Concrete indexing run used to witness the depth invariant. -/
def w2Files : List (Str × Option Str) := [("src/utils/c.py".data, some "code".data)]

/-- Identity chunking (one chunk per document) for the witness. -/
def w2Chunker : Str → List Str := fun s => [s]

/-- The single record the witness run persists. -/
def w2Rec : Record := mkRecord "src/utils/c.py".data "code".data

/-- Concrete indexing run with two files in the same directory, used to
witness depth determinism. -/
def w10Files : List (Str × Option Str) :=
  [("src/a.py".data, some "aa".data), ("src/b.py".data, some "bb".data)]

/-- First persisted record of the witness run (directory `src`). -/
def w10r1 : Record := mkRecord "src/a.py".data "aa".data

/-- Second persisted record of the witness run (directory `src`). -/
def w10r2 : Record := mkRecord "src/b.py".data "bb".data

/-- Identity chunking for the C10 witness. -/
def w10Chunker : Str → List Str := fun s => [s]

/-- Spec-side description (claim C1, root case): the distinct directory
values at a given depth, as a finite set. -/
def distinctDirsAtDepth (db : List Record) (d : Nat) : Finset Str :=
  ((db.filter (fun r => r.depth == d)).map (fun r => r.directory)).toFinset

/-- Spec-side description (claim C1, non-root case): the distinct directory
values that literally begin with `p ++ "/"` and sit at exactly the given
depth. -/
def literalSubdirs (db : List Record) (p : Str) (d : Nat) : Finset Str :=
  ((db.filter (fun r =>
    startsWith (p ++ ['/']) r.directory && r.depth == d)).map
      (fun r => r.directory)).toFinset

/-- Indexing run whose directory `x*y` contains a regex metacharacter, for
the C1 counterexample. -/
def c1exFiles : List (Str × Option Str) :=
  [("x*y/f.txt".data, some "hello".data), ("x*y/s/g.txt".data, some "world".data)]

/-- The persisted records of the run above: directory `x*y` at depth 1 and
directory `x*y/s` at depth 2. -/
def c1exDb : List Record := persistedRecords (fun s => [s]) c1exFiles

/-- Indexing run with a file in `src` and one in `src/utils`, for the C1
witness. -/
def w1Files : List (Str × Option Str) :=
  [("src/b.py".data, some "w".data), ("src/utils/c.py".data, some "z".data)]

/-- The persisted records of the witness run above. -/
def w1Db : List Record := persistedRecords (fun s => [s]) w1Files

/-- Indexing run whose directory `a+b` contains a regex metacharacter, for
the C3 failing case. -/
def c3exFiles : List (Str × Option Str) :=
  [("a+b/f.txt".data, some "xx".data), ("a+b/sub/g.txt".data, some "yy".data)]

/-- The persisted records of the run above: directory `a+b` at depth 1 and
directory `a+b/sub` at depth 2. -/
def c3exDb : List Record := persistedRecords (fun s => [s]) c3exFiles

/-- Indexing run containing the directories `src` and `src-old`, for the C6
witness. -/
def w6Files : List (Str × Option Str) :=
  [("src/a.py".data, some "x".data), ("src-old/b.py".data, some "y".data)]

/-- The persisted records of the run above. -/
def w6Db : List Record := persistedRecords (fun s => [s]) w6Files

/-- First witness record, with directory `src`. -/
def w6r1 : Record := mkRecord "src/a.py".data "x".data

/-- Second witness record, with directory `src-old`. -/
def w6r2 : Record := mkRecord "src-old/b.py".data "y".data

/-- Indexing run in which the single file `a.py` is split into two chunks,
for the C4 counterexample. -/
def c4exFiles : List (Str × Option Str) := [("a.py".data, some "hello world".data)]

/-- A chunker splitting the content into two overlapping pieces, standing
for the recursive splitter on a file longer than the chunk size. -/
def c4exChunker : Str → List Str := fun s => [s.take 6, s.drop 5]

/-- The persisted records of the run above: two chunk rows of one file. -/
def c4exDb : List Record := persistedRecords c4exChunker c4exFiles

/-- Indexing run with two single-chunk files of distinct names, for the C4
witness. -/
def w4Files : List (Str × Option Str) :=
  [("a.py".data, some "x".data), ("src/b.py".data, some "y".data)]

/-- The persisted records of the run above. -/
def w4Db : List Record := persistedRecords (fun s => [s]) w4Files

/-- Witness record `src/a.py`, file name `a.py`. -/
def w5r1 : Record := mkRecord "src/a.py".data "x".data

/-- Witness record `docs/a.py`, same file name `a.py`, other directory. -/
def w5r2 : Record := mkRecord "docs/a.py".data "y".data

/-- A chunker splitting the content into two overlapping pieces, for the C9
witness. -/
def w9Chunker : Str → List Str := fun s => [s.take 6, s.drop 5]

/-- Two chunk rows of the single file `d/a.py`, for the C9 witness. -/
def w9Chunks : List Record :=
  persistedRecords w9Chunker [("d/a.py".data, some "hello world".data)]

theorem dropWhile_append_all {p : Char → Bool} {l1 : List Char} (l2 : List Char)
    (h : ∀ a ∈ l1, p a = true) :
    (l1 ++ l2).dropWhile p = l2.dropWhile p := by
  induction l1 with
  | nil => rfl
  | cons a l ih =>
    simp only [List.cons_append, List.dropWhile_cons, h a (by simp)]
    exact ih (fun b hb => h b (by simp [hb]))

theorem dropWhile_cons_false {p : Char → Bool} {a : Char} {l : List Char}
    (h : p a = false) : (a :: l).dropWhile p = a :: l := by
  simp [List.dropWhile_cons, h]

theorem rtokMatch_lits : ∀ (xs s : Str), rtokMatch (xs.map RTok.lit) s = startsWith xs s
  | [], _ => by simp [rtokMatch, startsWith]
  | _ :: _, [] => by simp [rtokMatch, startsWith]
  | x :: xs, y :: s => by
    have hc : (y == x) = (x == y) := by
      cases h1 : (y == x) <;> cases h2 : (x == y) <;> simp_all [beq_iff_eq]
    simp [rtokMatch, startsWith, rtokMatch_lits xs s, hc]

theorem startsWith_concat_self (p : Str) : startsWith (p ++ ['/']) p = false := by
  induction p with
  | nil => rfl
  | cons c p ih => simp [startsWith, ih]

theorem safe_head {c : Char} {p : Str} (hs : regexSafe (c :: p) = true) :
    regexSafeChar c = true ∧ regexSafe p = true := by
  simpa only [regexSafe, List.all_cons, Bool.and_eq_true] using hs

theorem safeChar_not_meta {c : Char} (h : regexSafeChar c = true) (hc : ¬(c = '.')) :
    isMeta c = false := by
  simp only [regexSafeChar, Bool.or_eq_true, beq_iff_eq] at h
  rcases h with h | h
  · exact absurd h hc
  · simpa using h

theorem not_meta_ne {c : Char} (hm : isMeta c = false) :
    ∀ m : Char, isMeta m = true → ¬(c = m) := by
  intro m hmt he; rw [he, hmt] at hm; cases hm

theorem lex_escapeDots (p : Str) (hs : regexSafe p = true) :
    lexPattern (escapeDots p ++ ['/'])
      = some (p.map ptokOf ++ [PTok.raw '/']) := by
  induction p with
  | nil => rfl
  | cons c p ih =>
    have hparts := safe_head hs
    by_cases hc : c = '.'
    · have he : escapeDots (c :: p) ++ ['/'] = '\\' :: '.' :: (escapeDots p ++ ['/']) := by
        simp [escapeDots, hc]
      rw [he]
      simp [lexPattern, ih hparts.2, ptokOf, hc]
    · have hm : isMeta c = false := safeChar_not_meta hparts.1 hc
      have hbs : ¬(c = '\\') := not_meta_ne hm '\\' (by decide)
      have he : escapeDots (c :: p) ++ ['/'] = c :: (escapeDots p ++ ['/']) := by
        simp [escapeDots, hc]
      rw [he]
      simp [lexPattern, hbs, ih hparts.2, ptokOf, hc]

theorem toksAux_some_safe (p : Str) (hs : regexSafe p = true) : ∀ a : Char,
    toksAux (some a) (p.map ptokOf ++ [PTok.raw '/'])
      = some (RTok.lit a :: (p ++ ['/']).map RTok.lit) := by
  induction p with
  | nil => intro a; rfl
  | cons c p ih =>
    intro a
    have hparts := safe_head hs
    by_cases hc : c = '.'
    · simp only [List.map_cons, List.cons_append, ptokOf, hc, if_pos rfl]
      simp [toksAux, ih hparts.2 '.', hc]
    · have hm : isMeta c = false := safeChar_not_meta hparts.1 hc
      have h1 := not_meta_ne hm '+' (by decide)
      have h2 := not_meta_ne hm '*' (by decide)
      have h3 := not_meta_ne hm '?' (by decide)
      have h4 := not_meta_ne hm '{' (by decide)
      simp only [List.map_cons, List.cons_append, ptokOf, if_neg hc]
      simp [toksAux, h1, h2, h3, h4, hm, ih hparts.2 c]

theorem toksOf_safe (p : Str) (hs : regexSafe p = true) :
    toksOf (p.map ptokOf ++ [PTok.raw '/'])
      = some ((p ++ ['/']).map RTok.lit) := by
  cases p with
  | nil => rfl
  | cons c p =>
    have hparts := safe_head hs
    unfold toksOf
    by_cases hc : c = '.'
    · simp only [List.map_cons, List.cons_append, ptokOf, hc, if_pos rfl]
      simp [toksAux, toksAux_some_safe p hparts.2 '.', hc]
    · have hm : isMeta c = false := safeChar_not_meta hparts.1 hc
      have h1 := not_meta_ne hm '+' (by decide)
      have h2 := not_meta_ne hm '*' (by decide)
      have h3 := not_meta_ne hm '?' (by decide)
      have h4 := not_meta_ne hm '{' (by decide)
      simp only [List.map_cons, List.cons_append, ptokOf, if_neg hc]
      simp [toksAux, h1, h2, h3, h4, hm, toksAux_some_safe p hparts.2 c]

theorem parse_escapeDots (p : Str) (hs : regexSafe p = true) :
    parseRegexBody (escapeDots p ++ ['/']) = some ((p ++ ['/']).map RTok.lit) := by
  unfold parseRegexBody
  rw [lex_escapeDots p hs]
  exact toksOf_safe p hs

theorem mongoRegexMatch_safe (p s : Str) (hs : regexSafe p = true) :
    mongoRegexMatch (subdirPattern p) s = startsWith (p ++ ['/']) s := by
  unfold mongoRegexMatch subdirPattern
  rw [parse_escapeDots p hs]
  exact rtokMatch_lits _ _

theorem dirname_slashFree (p : Str) (h : ∀ ch ∈ p, ch ≠ '/') : dirname p = [] := by
  have h1 : p.reverse.dropWhile (fun c => !(c == '/')) = [] := by
    apply List.dropWhile_eq_nil_iff.mpr
    intro a ha
    simp [h a (List.mem_reverse.mp ha)]
  simp [dirname, h1]

theorem joinPath_rev_head : ∀ (cs : List Str), cs ≠ [] → (∀ x ∈ cs, validComponent x) →
    ∃ d t, (joinPath cs).reverse = d :: t ∧ d ≠ '/'
  | [], h, _ => absurd rfl h
  | [c0], _, hv => by
    have hc0 : validComponent c0 := hv c0 (by simp)
    cases hrev : c0.reverse with
    | nil => exact absurd (List.reverse_eq_nil_iff.mp hrev) hc0.1
    | cons d t =>
      have hd : d ∈ c0 := List.mem_reverse.mp (hrev ▸ List.mem_cons_self d t)
      exact ⟨d, t, by simp [joinPath, hrev], hc0.2.1 d hd⟩
  | c0 :: c1 :: cs', _, hv => by
    obtain ⟨d, t, hdt, hd⟩ :=
      joinPath_rev_head (c1 :: cs') (by simp) (fun x hx => hv x (by simp [hx]))
    refine ⟨d, t ++ '/' :: c0.reverse, ?_, hd⟩
    show (joinPath (c0 :: c1 :: cs')).reverse = d :: (t ++ '/' :: c0.reverse)
    have he : joinPath (c0 :: c1 :: cs') = c0 ++ '/' :: joinPath (c1 :: cs') := rfl
    rw [he, List.reverse_append, List.reverse_cons, hdt]
    simp

theorem joinPath_ne_nil (cs : List Str) (h : cs ≠ [])
    (hv : ∀ x ∈ cs, validComponent x) : joinPath cs ≠ [] := by
  obtain ⟨d, t, hdt, _⟩ := joinPath_rev_head cs h hv
  intro he
  rw [he] at hdt
  cases hdt

theorem joinPath_ne_dot (cs : List Str) (h : cs ≠ [])
    (hv : ∀ x ∈ cs, validComponent x) : joinPath cs ≠ rootDir := by
  cases cs with
  | nil => exact absurd rfl h
  | cons c0 cs' =>
    cases cs' with
    | nil => simpa [joinPath, rootDir] using (hv c0 (by simp)).2.2
    | cons c1 cs'' =>
      intro he
      have hlen := congrArg List.length he
      have hc0 : c0 ≠ [] := (hv c0 (by simp)).1
      have hpos : 1 ≤ c0.length := List.length_pos.mpr hc0
      have he2 : joinPath (c0 :: c1 :: cs'') = c0 ++ '/' :: joinPath (c1 :: cs'') := rfl
      rw [he2] at hlen
      simp [List.length_append, rootDir] at hlen
      omega

theorem joinPath_concat : ∀ (cs : List Str) (c : Str), cs ≠ [] →
    joinPath (cs ++ [c]) = joinPath cs ++ '/' :: c
  | [], _, h => absurd rfl h
  | [c0], c, _ => by simp [joinPath]
  | c0 :: c1 :: cs', c, _ => by
    have ih := joinPath_concat (c1 :: cs') c (by simp)
    have h1 : joinPath ((c0 :: c1 :: cs') ++ [c])
        = c0 ++ '/' :: joinPath ((c1 :: cs') ++ [c]) := rfl
    have h2 : joinPath (c0 :: c1 :: cs') = c0 ++ '/' :: joinPath (c1 :: cs') := rfl
    rw [h1, h2, ih]
    simp

theorem countSep_slashFree (c : Str) (h : ∀ ch ∈ c, ch ≠ '/') : countSep c = 0 :=
  List.count_eq_zero.mpr (fun hm => h '/' hm rfl)

theorem countSep_append_comp (A c : Str) (hc : ∀ ch ∈ c, ch ≠ '/') :
    countSep (A ++ '/' :: c) = countSep A + 1 := by
  show (A ++ '/' :: c).count '/' = A.count '/' + 1
  rw [List.count_append, List.count_cons_self,
    List.count_eq_zero.mpr (fun hm => hc '/' hm rfl)]

theorem dirname_append_comp (cs : List Str) (c : Str) (hne : cs ≠ [])
    (hv : ∀ x ∈ cs, validComponent x) (hcs : ∀ ch ∈ c, ch ≠ '/') :
    dirname (joinPath cs ++ '/' :: c) = joinPath cs := by
  obtain ⟨d, t, hdt, hd⟩ := joinPath_rev_head cs hne hv
  have hrev : (joinPath cs ++ '/' :: c).reverse
      = c.reverse ++ '/' :: (joinPath cs).reverse := by
    rw [List.reverse_append, List.reverse_cons]
    simp
  have hdrop : (joinPath cs ++ '/' :: c).reverse.dropWhile (fun x => !(x == '/'))
      = '/' :: (joinPath cs).reverse := by
    rw [hrev, dropWhile_append_all _
      (by intro a ha; simp [hcs a (List.mem_reverse.mp ha)])]
    exact dropWhile_cons_false (by simp)
  have hhead : ((joinPath cs ++ '/' :: c).reverse.dropWhile
      (fun x => !(x == '/'))).reverse = joinPath cs ++ ['/'] := by
    rw [hdrop, List.reverse_cons, List.reverse_reverse]
  have hdmem : d ∈ joinPath cs := List.mem_reverse.mp (hdt ▸ List.mem_cons_self d t)
  have hnall : ((joinPath cs ++ ['/']).all (fun x => x == '/')) = false := by
    apply Bool.eq_false_iff.mpr
    intro hall
    have := List.all_eq_true.mp hall d (List.mem_append_left _ hdmem)
    exact hd (by simpa using this)
  simp only [dirname]
  rw [hhead, if_neg (by simp : ¬(joinPath cs ++ ['/'] = [])), hnall]
  simp only [Bool.false_eq_true, if_false]
  rw [List.reverse_append, List.reverse_cons]
  simp only [List.reverse_nil, List.nil_append, List.singleton_append]
  rw [List.dropWhile_cons]
  simp only [beq_self_eq_true, if_true]
  rw [hdt, dropWhile_cons_false (by simp [hd]), ← hdt, List.reverse_reverse]

theorem dirname_joinPath_concat (cs : List Str) (c : Str)
    (hv : ∀ x ∈ cs ++ [c], validComponent x) :
    dirname (joinPath (cs ++ [c])) = joinPath cs := by
  have hc : validComponent c := hv c (by simp)
  by_cases hne : cs = []
  · subst hne
    simpa [joinPath] using dirname_slashFree c hc.2.1
  · rw [joinPath_concat cs c hne]
    exact dirname_append_comp cs c hne (fun x hx => hv x (by simp [hx])) hc.2.1

theorem mkRecord_dir_depth (comps : List Str) (hne : comps ≠ [])
    (hv : ∀ x ∈ comps, validComponent x) (content : Str) :
    (mkRecord (joinPath comps) content).depth
      = dirDepth ((mkRecord (joinPath comps) content).directory)
    ∧ ((mkRecord (joinPath comps) content).directory ≠ rootDir →
        (mkRecord (joinPath comps) content).depth
          = dirDepth (parentDir ((mkRecord (joinPath comps) content).directory)) + 1) := by
  obtain ⟨cs, c, hcc⟩ := (List.eq_nil_or_concat comps).resolve_left hne
  rw [List.concat_eq_append] at hcc
  subst hcc
  have hdir : dirname (joinPath (cs ++ [c])) = joinPath cs := dirname_joinPath_concat cs c hv
  have hvcs : ∀ x ∈ cs, validComponent x := fun x hx => hv x (by simp [hx])
  by_cases hcs : cs = []
  · subst hcs
    have hdir0 : dirname (joinPath ([] ++ [c])) = [] := hdir
    simp only [mkRecord, hdir0, if_pos rfl]
    exact ⟨by simp [dirDepth, rootDir], fun h => absurd rfl h⟩
  · have hnn : joinPath cs ≠ [] := joinPath_ne_nil cs hcs hvcs
    have hnd : joinPath cs ≠ rootDir := joinPath_ne_dot cs hcs hvcs
    simp only [mkRecord, hdir, if_neg hnn]
    constructor
    · simp [dirDepth, hnd]
    · intro _
      obtain ⟨cs', c', hcc'⟩ := (List.eq_nil_or_concat cs).resolve_left hcs
      rw [List.concat_eq_append] at hcc'
      subst hcc'
      have hvc' : validComponent c' := hvcs c' (by simp)
      have hdir2 : dirname (joinPath (cs' ++ [c'])) = joinPath cs' :=
        dirname_joinPath_concat cs' c' hvcs
      by_cases hcs' : cs' = []
      · subst hcs'
        simp only [List.nil_append] at hdir2 ⊢
        have hdir2' : dirname (joinPath [c']) = [] := by
          simpa [joinPath] using hdir2
        have hpar0 : parentDir (joinPath [c']) = rootDir := by
          simp [parentDir, hdir2']
        rw [hpar0]
        have hc0 : countSep (joinPath [c']) = 0 := by
          simpa [joinPath] using countSep_slashFree c' hvc'.2.1
        simp [dirDepth, hc0, rootDir]
      · have hvcs' : ∀ x ∈ cs', validComponent x := fun x hx => hvcs x (by simp [hx])
        have hnn' : joinPath cs' ≠ [] := joinPath_ne_nil cs' hcs' hvcs'
        have hnd' : joinPath cs' ≠ rootDir := joinPath_ne_dot cs' hcs' hvcs'
        have hpar : parentDir (joinPath (cs' ++ [c'])) = joinPath cs' := by
          simp [parentDir, hdir2, hnn']
        rw [hpar]
        have hcount : countSep (joinPath (cs' ++ [c']))
            = countSep (joinPath cs') + 1 := by
          rw [joinPath_concat cs' c' hcs']
          exact countSep_append_comp _ _ hvc'.2.1
        simp [dirDepth, hnd', hcount]

theorem mem_persisted {chunker : Str → List Str} {files : List (Str × Option Str)}
    {r : Record} (hr : r ∈ persistedRecords chunker files) :
    ∃ pc ∈ files, ∃ c, pc.2 = some c
      ∧ r.directory = (mkRecord pc.1 c).directory
      ∧ r.depth = (mkRecord pc.1 c).depth := by
  unfold persistedRecords splitDocuments at hr
  rw [List.mem_flatMap] at hr
  obtain ⟨d, hd, hrd⟩ := hr
  rw [List.mem_map] at hrd
  obtain ⟨t, _, hrt⟩ := hrd
  unfold indexDocuments at hd
  rw [List.mem_filterMap] at hd
  obtain ⟨pc, hpc, hsome⟩ := hd
  cases hc2 : pc.2 with
  | none => simp [hc2] at hsome
  | some c =>
    simp only [hc2] at hsome
    by_cases htext : hasTextContent (some c) = true
    · rw [if_pos htext] at hsome
      have hd2 : d = mkRecord pc.1 c := by injection hsome with h; exact h.symm
      refine ⟨pc, hpc, c, hc2, ?_, ?_⟩
      · rw [← hrt, ← hd2]
      · rw [← hrt, ← hd2]
    · rw [if_neg htext] at hsome; cases hsome

theorem persisted_depth_spec (chunker : Str → List Str)
    (files : List (Str × Option Str))
    (hclean : ∀ pc ∈ files, isRepoPath pc.1) :
    ∀ r ∈ persistedRecords chunker files,
      r.depth = dirDepth r.directory
      ∧ (r.directory ≠ rootDir →
          r.depth = dirDepth (parentDir r.directory) + 1) := by
  intro r hr
  obtain ⟨pc, hpc, c, _, hdir, hdep⟩ := mem_persisted hr
  obtain ⟨comps, hne, hv, hp⟩ := hclean pc hpc
  rw [hdir, hdep, hp]
  exact mkRecord_dir_depth comps hne hv c

/-- C2: for every record persisted by the indexer over paths of the shape the
GitHub fetcher produces, the depth field is the non-negative integer
determined by the directory field — the root sentinel has depth 0, a
non-root directory has depth equal to the count of path separators in the
directory string plus one — and consequently every directory's depth equals
1 + the depth of its parent directory, a directory whose parent is the root
having depth exactly 1. -/
theorem indexer_depth_invariant (chunker : Str → List Str)
    (files : List (Str × Option Str))
    (hclean : ∀ pc ∈ files, isRepoPath pc.1) :
    ∀ r ∈ persistedRecords chunker files,
      r.depth = dirDepth r.directory
      ∧ (r.directory = rootDir → r.depth = 0)
      ∧ (r.directory ≠ rootDir →
          r.depth = countSep r.directory + 1
          ∧ r.depth = dirDepth (parentDir r.directory) + 1
          ∧ (parentDir r.directory = rootDir → r.depth = 1)) := by
  intro r hr
  obtain ⟨h1, h2⟩ := persisted_depth_spec chunker files hclean r hr
  refine ⟨h1, ?_, ?_⟩
  · intro hroot
    rw [h1, hroot]
    simp [dirDepth]
  · intro hnr
    refine ⟨by rw [h1]; simp [dirDepth, hnr], h2 hnr, ?_⟩
    intro hpar
    rw [h2 hnr, hpar]
    simp [dirDepth]

theorem indexer_depth_invariant_witness :
    w2Rec.depth = dirDepth w2Rec.directory
    ∧ (w2Rec.directory = rootDir → w2Rec.depth = 0)
    ∧ (w2Rec.directory ≠ rootDir →
        w2Rec.depth = countSep w2Rec.directory + 1
        ∧ w2Rec.depth = dirDepth (parentDir w2Rec.directory) + 1
        ∧ (parentDir w2Rec.directory = rootDir → w2Rec.depth = 1)) :=
  indexer_depth_invariant w2Chunker w2Files
    (by
      intro pc hpc
      have hpc' : pc = ("src/utils/c.py".data, some "code".data) := by
        simpa [w2Files] using hpc
      subst hpc'
      exact ⟨["src".data, "utils".data, "c.py".data], by decide, by decide, by decide⟩)
    w2Rec (by decide)

/-- C10: any two records persisted by the indexer that carry the same
directory value carry the same depth value — depth is a deterministic
function of the directory string — and hence resolving a directory's depth
through `find_one` (the first matching record), as the subdirectory
operations do, gives the same depth as any other matching record. -/
theorem depth_deterministic (chunker : Str → List Str)
    (files : List (Str × Option Str))
    (hclean : ∀ pc ∈ files, isRepoPath pc.1) :
    (∀ r1 ∈ persistedRecords chunker files, ∀ r2 ∈ persistedRecords chunker files,
        r1.directory = r2.directory → r1.depth = r2.depth)
    ∧ (∀ (p : Str) (doc : Record),
        (persistedRecords chunker files).find? (fun r => r.directory == p) = some doc →
        ∀ r ∈ persistedRecords chunker files, r.directory = p → doc.depth = r.depth) := by
  have hmain : ∀ r1 ∈ persistedRecords chunker files,
      ∀ r2 ∈ persistedRecords chunker files,
      r1.directory = r2.directory → r1.depth = r2.depth := by
    intro r1 h1 r2 h2 hdir
    rw [(persisted_depth_spec chunker files hclean r1 h1).1,
      (persisted_depth_spec chunker files hclean r2 h2).1, hdir]
  refine ⟨hmain, ?_⟩
  intro p doc hfind r hrmem hdir
  have hdm : doc ∈ persistedRecords chunker files := List.mem_of_find?_eq_some hfind
  have hdp : doc.directory = p := by
    have := List.find?_some hfind
    simpa [beq_iff_eq] using this
  exact hmain doc hdm r hrmem (hdp.trans hdir.symm)

theorem depth_deterministic_witness : w10r1.depth = w10r2.depth :=
  (depth_deterministic w10Chunker w10Files
    (by
      intro pc hpc
      simp only [w10Files, List.mem_cons, List.mem_singleton,
        List.not_mem_nil, or_false] at hpc
      rcases hpc with hpc' | hpc' <;> subst hpc'
      · exact ⟨["src".data, "a.py".data], by decide, by decide, by decide⟩
      · exact ⟨["src".data, "b.py".data], by decide, by decide, by decide⟩)).1
    w10r1 (by decide) w10r2 (by decide) (by decide)

theorem subdirRegexMatches_safe (db : List Record) (p : Str) (t : Nat)
    (hs : regexSafe p = true) :
    subdirRegexMatches db p t
      = ((db.filter (fun r =>
          startsWith (p ++ ['/']) r.directory && r.depth == t)).map
            (fun r => r.directory)).dedup := by
  unfold subdirRegexMatches mongoDistinctDirs
  have hfun : (fun r : Record =>
      mongoRegexMatch (subdirPattern p) r.directory && r.depth == t)
      = (fun r : Record => startsWith (p ++ ['/']) r.directory && r.depth == t) := by
    funext r
    rw [mongoRegexMatch_safe _ _ hs]
  rw [hfun]

theorem not_mem_subdirRegexMatches_self (db : List Record) (p : Str) (t : Nat)
    (hs : regexSafe p = true) : p ∉ subdirRegexMatches db p t := by
  intro hmem
  rw [subdirRegexMatches_safe db p t hs, List.mem_dedup, List.mem_map] at hmem
  obtain ⟨r, hrf, hrd⟩ := hmem
  rw [List.mem_filter, Bool.and_eq_true] at hrf
  have h1 := hrf.2.1
  rw [hrd, startsWith_concat_self] at h1
  cases h1

theorem countSubdirectoriesCore_found (db : List Record) (p : Str) (doc : Record)
    (hp : ¬(p = rootDir))
    (hfind : db.find? (fun r => r.directory == p) = some doc) :
    countSubdirectoriesCore db p
      = SubdirsResult.count
          (if p ∈ subdirRegexMatches db p (doc.depth + 1)
           then (subdirRegexMatches db p (doc.depth + 1)).erase p
           else subdirRegexMatches db p (doc.depth + 1)).length := by
  unfold countSubdirectoriesCore
  rw [if_neg hp, hfind]

/-- C1 (amended: the directory path contains no regex metacharacter other
than the dot, which is the only character the code escapes): for the root
sentinel the operation returns the number of distinct directory values at
depth 1; for any other path it resolves the path's own depth D from the
first persisted record whose directory equals the path — reporting not
found, with no fallback, when no such record exists — and otherwise returns
the number of distinct directory values that literally begin with
`path + "/"` and have depth exactly D + 1. -/
theorem count_subdirectories_literal_semantics (db : List Record) (p : Str)
    (hs : regexSafe p = true) :
    countSubdirectoriesCore db rootDir
      = SubdirsResult.count (distinctDirsAtDepth db 1).card
    ∧ (p ≠ rootDir →
        ((db.find? (fun r => r.directory == p) = none →
            countSubdirectoriesCore db p = SubdirsResult.notFound)
          ∧ ∀ doc, db.find? (fun r => r.directory == p) = some doc →
              countSubdirectoriesCore db p
                = SubdirsResult.count (literalSubdirs db p (doc.depth + 1)).card)) := by
  constructor
  · unfold countSubdirectoriesCore distinctDirsAtDepth mongoDistinctDirs
    rw [if_pos rfl, List.card_toFinset]
  · intro hp
    constructor
    · intro hnone
      unfold countSubdirectoriesCore
      rw [if_neg hp, hnone]
    · intro doc hfind
      rw [countSubdirectoriesCore_found db p doc hp hfind,
        if_neg (not_mem_subdirRegexMatches_self db p (doc.depth + 1) hs),
        subdirRegexMatches_safe db p (doc.depth + 1) hs]
      unfold literalSubdirs
      rw [List.card_toFinset]

theorem count_subdirectories_claim_counterexample :
    countSubdirectoriesCore c1exDb "x*y".data = SubdirsResult.count 0
    ∧ (literalSubdirs c1exDb "x*y".data 2).card = 1
    ∧ (c1exDb.find? (fun r => r.directory == "x*y".data)).map Record.depth
        = some 1 := by decide

theorem count_subdirectories_literal_semantics_witness :
    countSubdirectoriesCore w1Db rootDir
      = SubdirsResult.count (distinctDirsAtDepth w1Db 1).card
    ∧ ("src".data ≠ rootDir →
        ((w1Db.find? (fun r => r.directory == "src".data) = none →
            countSubdirectoriesCore w1Db "src".data = SubdirsResult.notFound)
          ∧ ∀ doc, w1Db.find? (fun r => r.directory == "src".data) = some doc →
              countSubdirectoriesCore w1Db "src".data
                = SubdirsResult.count
                    (literalSubdirs w1Db "src".data (doc.depth + 1)).card)) :=
  count_subdirectories_literal_semantics w1Db "src".data (by decide)

/-- C3 evaluated at its failing input: the code escapes only the dot, so for
the path `a+b` the generated pattern `^a+b/` treats `+` as a quantifier —
it fails to match the directory `a+b/sub` (which literally starts with
`a+b/`), would falsely match `aab/z` (which does not), and consequently both
subdirectory operations report zero subdirectories for `a+b` although one
exists. -/
theorem escape_only_dot_failing_case :
    mongoRegexMatch (subdirPattern "a+b".data) "a+b/sub".data = false
    ∧ startsWith ("a+b".data ++ ['/']) "a+b/sub".data = true
    ∧ mongoRegexMatch (subdirPattern "a+b".data) "aab/z".data = true
    ∧ startsWith ("a+b".data ++ ['/']) "aab/z".data = false
    ∧ countSubdirectoriesCore c3exDb "a+b".data = SubdirsResult.count 0
    ∧ (literalSubdirs c3exDb "a+b".data 2).card = 1
    ∧ listSubdirectoriesCore c3exDb "a+b".data = SubdirsListResult.dirs [] := by
  decide

/-- C6: in any data set containing records for the distinct directories
`src` and `src-old` — the latter a proper extension of the former without a
separator boundary — the subdirectory match for `src` anchors on the
separator: every matched directory literally begins with `src/`, and in
particular `src-old` is never among the matched subdirectories, at any
target depth. -/
theorem subdir_match_anchored (db : List Record) (r1 r2 : Record)
    (h1 : r1 ∈ db) (hd1 : r1.directory = "src".data)
    (h2 : r2 ∈ db) (hd2 : r2.directory = "src-old".data) :
    (∀ t : Nat, "src-old".data ∉ subdirRegexMatches db "src".data t)
    ∧ ∀ t : Nat, ∀ d ∈ subdirRegexMatches db "src".data t,
        startsWith ("src".data ++ ['/']) d = true := by
  have hkey : ∀ (t : Nat) (d : Str), d ∈ subdirRegexMatches db "src".data t →
      startsWith ("src".data ++ ['/']) d = true := by
    intro t d hmem
    rw [subdirRegexMatches_safe db "src".data t (by decide),
      List.mem_dedup, List.mem_map] at hmem
    obtain ⟨r, hrf, hrd⟩ := hmem
    rw [List.mem_filter, Bool.and_eq_true] at hrf
    rw [← hrd]
    exact hrf.2.1
  refine ⟨?_, hkey⟩
  intro t hmem
  have hbad := hkey t "src-old".data hmem
  exact absurd hbad (by decide)

theorem subdir_match_anchored_witness :
    (∀ t : Nat, "src-old".data ∉ subdirRegexMatches w6Db "src".data t)
    ∧ ∀ t : Nat, ∀ d ∈ subdirRegexMatches w6Db "src".data t,
        startsWith ("src".data ++ ['/']) d = true :=
  subdir_match_anchored w6Db w6r1 w6r2 (by decide) (by decide) (by decide) (by decide)

/-- C7: for every indexed data set, the count that
`count_subdirectories_in_directory` returns for the root sentinel equals the
length of the list `list_top_level_directories` returns. -/
theorem root_subdir_count_eq_top_level (db : List Record) :
    countSubdirectoriesCore db rootDir
      = SubdirsResult.count (listTopLevelDirectoriesCore db).length := by
  unfold countSubdirectoriesCore listTopLevelDirectoriesCore
  rw [if_pos rfl, List.length_insertionSort]

theorem beq_eq_decide_eq (x y : Str) :
    (x == y) = decide (x = y) := by
  by_cases hxy : x = y <;> simp [hxy]

theorem extension_groups_sum (db : List Record) :
    ((countFilesByExtensionCore db).map (fun g => g.2)).sum = db.length := by
  have h1 : ((countFilesByExtensionCore db).map (fun g => g.2)).sum
      = ((((db.map (fun r => r.file_extension)).dedup).map
          (fun e => (e, db.countP (fun r => r.file_extension == e)))).map
            (fun g => g.2)).sum :=
    ((List.perm_insertionSort descCountP _).map (fun g => g.2)).sum_eq
  rw [h1, List.map_map]
  have h3 : ((db.map (fun r => r.file_extension)).dedup).map
        ((fun g : Str × Nat => g.2)
          ∘ (fun e => (e, db.countP (fun r => r.file_extension == e))))
      = ((db.map (fun r => r.file_extension)).dedup).map
        (fun e => @List.count Str instBEqOfDecidableEq e
          (db.map (fun r => r.file_extension))) := by
    apply List.map_congr_left
    intro e _
    show db.countP (fun r => r.file_extension == e)
      = @List.count Str instBEqOfDecidableEq e (db.map (fun r => r.file_extension))
    rw [@List.count_eq_countP Str instBEqOfDecidableEq, List.countP_map]
    apply List.countP_congr
    intro r _
    rw [beq_eq_decide_eq]
    exact Iff.rfl
  rw [h3]
  have h4 := List.sum_map_count_dedup_eq_length (db.map (fun r => r.file_extension))
  rw [List.length_map] at h4
  exact h4

/-- C4 (amended): the per-extension counts of `count_files_by_extension`,
summed over all buckets including the empty-extension one, equal the total
number of persisted chunk records; they equal the total returned by
`count_total_files` exactly in the situation where the persisted records'
file names are pairwise distinct — that is, when file names are unique
across files and additionally every file was split into a single chunk. -/
theorem extension_sum_amended (db : List Record) :
    ((countFilesByExtensionCore db).map (fun g => g.2)).sum = db.length
    ∧ ((db.map (fun r => r.file_name)).Nodup →
        ((countFilesByExtensionCore db).map (fun g => g.2)).sum
          = countTotalFilesCore db) := by
  refine ⟨extension_groups_sum db, ?_⟩
  intro hnodup
  rw [extension_groups_sum db]
  show db.length = countTotalFilesCore db
  unfold countTotalFilesCore
  rw [List.filter_true db, List.dedup_eq_self.mpr hnodup, List.length_map]

theorem extension_sum_counterexample :
    ((countFilesByExtensionCore c4exDb).map (fun g => g.2)).sum = 2
    ∧ countTotalFilesCore c4exDb = 1
    ∧ (c4exFiles.map (fun pc => basename pc.1)).Nodup := by decide

theorem extension_sum_amended_witness :
    (((countFilesByExtensionCore w4Db).map (fun g => g.2)).sum = w4Db.length
      ∧ ((w4Db.map (fun r => r.file_name)).Nodup →
          ((countFilesByExtensionCore w4Db).map (fun g => g.2)).sum
            = countTotalFilesCore w4Db))
    ∧ (w4Db.map (fun r => r.file_name)).Nodup :=
  ⟨extension_sum_amended w4Db, by decide⟩

/-- C5: `count_total_files` returns the number of distinct `file_name`
values among all persisted records, so two records whose file names
coincide — for instance files of the same base name in different
directories — contribute one, not two, to the count. -/
theorem count_total_files_distinct_names (db : List Record) :
    countTotalFilesCore db = (db.map (fun r => r.file_name)).toFinset.card
    ∧ ∀ r1 r2 : Record, r1.file_name = r2.file_name →
        countTotalFilesCore (r1 :: r2 :: db) = countTotalFilesCore (r2 :: db) := by
  constructor
  · unfold countTotalFilesCore
    rw [List.filter_true db, List.card_toFinset]
  · intro r1 r2 hname
    unfold countTotalFilesCore
    rw [List.filter_true, List.filter_true]
    simp only [List.map_cons]
    rw [hname, List.dedup_cons_of_mem (List.mem_cons_self _ _)]

theorem count_total_files_distinct_names_witness :
    w5r1.file_name = w5r2.file_name
    ∧ countTotalFilesCore [w5r1, w5r2] = countTotalFilesCore [w5r2] :=
  ⟨by decide, (count_total_files_distinct_names []).2 w5r1 w5r2 (by decide)⟩

/-- C8: for each of the ten structural query tools of `structure_agent.py`
and each of the two content retrieval tools of `content_agent.py`, a failure
of the underlying database or vector-search call (modelled as the
`Except.error` outcome the `try` body observes), with any message and — for
the path-taking tools — any argument, is caught at the operation itself and
converted into that tool's descriptive error sentence, which is returned as
the answer; on success the tools likewise return their result sentences.
Every tool is a total string-valued function, so no failure ever propagates
to the caller. -/
theorem tools_convert_errors_to_strings (e : Str) (directory_path : Str) :
    countTotalFilesTool (Except.error e)
      = strL "Error counting total unique files: " ++ e
    ∧ countTotalDirectoriesTool (Except.error e)
      = strL "Error counting total directories: " ++ e
    ∧ countTopLevelDirectoriesTool (Except.error e)
      = strL "Error counting top-level directories: " ++ e
    ∧ countFilesInDirectoryTool directory_path (Except.error e)
      = strL "Error counting files in directory " ++ quoted directory_path
          ++ strL ": " ++ e
    ∧ countSubdirectoriesTool directory_path (Except.error e)
      = strL "Error counting subdirectories in directory "
          ++ quoted directory_path ++ strL ": " ++ e
    ∧ listAllDirectoriesTool (Except.error e)
      = strL "Error listing all directories: " ++ e
    ∧ listTopLevelDirectoriesTool (Except.error e)
      = strL "Error listing top-level directories: " ++ e
    ∧ listFilesInDirectoryTool directory_path (Except.error e)
      = strL "Error listing files in directory " ++ quoted directory_path
          ++ strL ": " ++ e
    ∧ listSubdirectoriesTool directory_path (Except.error e)
      = strL "Error listing subdirectories in directory "
          ++ quoted directory_path ++ strL ": " ++ e
    ∧ countFilesByExtensionTool (Except.error e)
      = strL "Error counting files by extension: " ++ e
    ∧ contentSearchTool (Except.error e)
      = strL "Error during content search: " ++ e
    ∧ summarizeRepoContentTool (Except.error e)
      = strL "Error retrieving content for summary: " ++ e
    ∧ (∀ db : List Record, countTotalFilesTool (Except.ok db)
        = strL "Total number of unique original files indexed: "
          ++ natStr (countTotalFilesCore db))
    ∧ contentSearchTool (Except.ok [])
      = strL "No relevant document chunks found."
    ∧ summarizeRepoContentTool (Except.ok [])
      = strL "Could not retrieve content for a general summary." :=
  ⟨rfl, rfl, rfl, rfl, rfl, rfl, rfl, rfl, rfl, rfl, rfl, rfl, fun _ => rfl,
    rfl, rfl⟩

/-- C9: `count_files_in_directory` and `list_files_in_directory` operate per
persisted chunk record, not per original file: wherever the collection
contains a block of n chunk rows of one file directly in directory p, the
count gains n from that file and the listing contains its file name n
times. -/
theorem per_chunk_semantics (db1 db2 chunks : List Record) (p fname : Str)
    (hc : ∀ c ∈ chunks, c.directory = p ∧ c.file_name = fname) :
    countFilesInDirectoryCore (db1 ++ chunks ++ db2) p
      = countFilesInDirectoryCore db1 p + chunks.length
        + countFilesInDirectoryCore db2 p
    ∧ listFilesInDirectoryCore (db1 ++ chunks ++ db2) p
      = listFilesInDirectoryCore db1 p ++ List.replicate chunks.length fname
          ++ listFilesInDirectoryCore db2 p := by
  have hpred : ∀ c ∈ chunks, (c.directory == p) = true := by
    intro c hcm
    simp [beq_iff_eq, (hc c hcm).1]
  constructor
  · unfold countFilesInDirectoryCore
    rw [List.countP_append, List.countP_append,
      List.countP_eq_length.mpr hpred]
  · unfold listFilesInDirectoryCore
    rw [List.filter_append, List.filter_append,
      List.filter_eq_self.mpr hpred, List.map_append, List.map_append]
    have hrep : chunks.map (fun r => r.file_name)
        = List.replicate chunks.length fname := by
      have hall : ∀ b ∈ chunks.map (fun r => r.file_name), b = fname := by
        intro b hb
        rw [List.mem_map] at hb
        obtain ⟨c, hcm, hbc⟩ := hb
        rw [← hbc]
        exact (hc c hcm).2
      have := List.eq_replicate_of_mem hall
      rwa [List.length_map] at this
    rw [hrep]

theorem per_chunk_semantics_witness :
    (∀ c ∈ w9Chunks, c.directory = "d".data ∧ c.file_name = "a.py".data)
    ∧ (countFilesInDirectoryCore ([] ++ w9Chunks ++ []) "d".data
        = countFilesInDirectoryCore [] "d".data + w9Chunks.length
          + countFilesInDirectoryCore [] "d".data
      ∧ listFilesInDirectoryCore ([] ++ w9Chunks ++ []) "d".data
        = listFilesInDirectoryCore [] "d".data
          ++ List.replicate w9Chunks.length "a.py".data
          ++ listFilesInDirectoryCore [] "d".data) :=
  ⟨by decide, per_chunk_semantics [] [] w9Chunks "d".data "a.py".data (by decide)⟩
